import Mathlib

/-!
Verification of the inventory-manager core (`src/main.py`): the in-memory
record table, the loader (`do_load`), the search operation (`do_search`),
the group-by aggregation (`do_summary`) and the row preview (`do_show`).

Modelling conventions for the shallow embedding:
* A cell is `Option Value`; `none` is the absent marker (pandas `NaN`,
  produced when `pd.concat` outer-unions heterogeneous column sets).
* A row is an ordered association list from column name to cell, a table a
  column list plus a row list (mirroring a `DataFrame`).
* `Series.astype(str)` renders `NaN` as the string `"nan"`.
  `str.contains(value, case=False, na=False)` treats the value as a
  regular expression (pandas default `regex=True`) compiled with
  `re.IGNORECASE`; `reContains` models it on the fragment whose only
  metacharacter is `.` (`inReFragment`). Values with other
  metacharacters — including invalid patterns, which raise an uncaught
  `re.error` in the source — are outside the model, and the matching
  theorems hypothesize the fragment. `substrCI` states the spec's
  literal substring-containment rule, for comparison with the source's
  regex matching.
* pandas `groupby` sorts group keys ascending and drops `NaN` keys
  (its default `dropna=True`). Grouping is modelled by structural key
  equality and the group sum by reading cells as numbers (absent as 0,
  as `sum` skips `NaN`), faithful when no two distinct keys are
  numerically identified (`valEquiv`: `groupby` unifies `int 1` with
  `float 1.0`) and every quantity cell is numeric or absent
  (`numericCell`: `agg` of `sum` over an object column of strings
  concatenates or raises `TypeError` instead); the aggregation theorems
  hypothesize that domain. `mean` skips absent cells, yielding `NaN`
  (here `none`) for an empty group.
* Python machine floats are modelled as rationals (`ℚ`).
-/

namespace Inventory

instance {ε α : Type _} [DecidableEq ε] [DecidableEq α] : DecidableEq (Except ε α) := fun a b =>
  match a, b with
  | .ok x, .ok y => decidable_of_iff (x = y) (by simp)
  | .error x, .error y => decidable_of_iff (x = y) (by simp)
  | .ok _, .error _ => .isFalse (by simp)
  | .error _, .ok _ => .isFalse (by simp)

/-- A scalar cell value as inferred by the CSV reader: a string, an
integer, or a floating-point number (modelled as a rational). -/
inductive Value where
  | vStr (s : String)
  | vInt (n : Int)
  | vFloat (q : ℚ)
deriving DecidableEq

/-- A cell: `none` is the absent marker (pandas `NaN`). -/
abbrev Cell := Option Value

/-- A row: ordered mapping from column name to cell. -/
abbrev Row := List (String × Cell)

/-- The record table: effective column set plus ordered rows
(mirrors `self.inventory : pd.DataFrame`). -/
structure Table where
  cols : List String
  rows : List Row
deriving DecidableEq

/-- Cell access `row[column]`; a column missing from the association list
reads as the absent marker. -/
def getCell (r : Row) (c : String) : Cell :=
  (List.lookup c r).getD none

/-- ASCII lower-casing of one character (`str.lower` / `case=False`). -/
def lowChar (c : Char) : Char := c.toLower

/-- `charsStart needle hay` holds when `needle` occurs at the start of
`hay`. -/
def charsStart : List Char → List Char → Bool
  | [], _ => true
  | _ :: _, [] => false
  | a :: as, b :: bs => a == b && charsStart as bs

/-- `charsFind needle hay` holds when `needle` occurs contiguously
somewhere in `hay` (the empty needle occurs in every haystack). -/
def charsFind : List Char → List Char → Bool
  | needle, [] => needle.isEmpty
  | needle, c :: t => charsStart needle (c :: t) || charsFind needle t

/-- Case-insensitive literal substring containment — the matching rule
the spec prescribes for search ("test case-insensitive substring
containment"), stated from the spec's words for comparison with the
source's regex matching (`reContains`). -/
def substrCI (hay needle : String) : Bool :=
  charsFind (needle.data.map lowChar) (hay.data.map lowChar)

/-- Python regex metacharacters other than `.` (the two brace
characters written by code point). -/
def isReMeta (c : Char) : Bool :=
  c == '^' || c == '$' || c == '*' || c == '+' || c == '?' ||
  c == '(' || c == ')' || c == '[' || c == ']' || c == '|' ||
  c == '\\' || c == Char.ofNat 123 || c == Char.ofNat 125

/-- The modelled fragment of Python regular expressions: every character
is `.` or a literal. Values outside the fragment (other metacharacters,
and invalid patterns, which raise an uncaught `re.error` in the source)
are not modelled; the matching theorems hypothesize membership. -/
def inReFragment (s : String) : Bool :=
  s.data.all (fun c => !isReMeta c)

/-- A fully literal pattern: no metacharacter at all, not even `.`. -/
def isReLiteralPat (s : String) : Bool :=
  s.data.all (fun c => !isReMeta c && !(c == '.'))

/-- One pattern character against one subject character: `.` matches
every character, any other character matches itself. -/
def reCharMatch (p c : Char) : Bool := p == '.' || p == c

/-- `reStart pat s`: the pattern matches a prefix of `s`. -/
def reStart : List Char → List Char → Bool
  | [], _ => true
  | _ :: _, [] => false
  | p :: ps, c :: cs => reCharMatch p c && reStart ps cs

/-- `reFind pat s`: `re.search` over the fragment — the pattern matches
at some position of `s`. -/
def reFind : List Char → List Char → Bool
  | pat, [] => pat.isEmpty
  | pat, c :: t => reStart pat (c :: t) || reFind pat t

/-- `Series.str.contains(value, case=False, na=False)` after
`astype(str)`: the value is a regular expression (pandas default
`regex=True`) compiled with `re.IGNORECASE` and tested with
`re.search`; case-insensitivity is modelled by lower-casing both sides,
exact on the literal-and-`.` fragment. -/
def reContains (hay pat : String) : Bool :=
  reFind (pat.data.map lowChar) (hay.data.map lowChar)

/-- Fractional decimal digits of `r / d` (fuelled long division); used
only to render terminating decimals. -/
def fracDigits : Nat → Nat → Nat → String
  | 0, _, _ => ""
  | _ + 1, 0, _ => ""
  | fuel + 1, r, d => toString (r * 10 / d) ++ fracDigits fuel (r * 10 % d) d

/-- Python `str()` of a float with a terminating decimal expansion. -/
def ratStr (q : ℚ) : String :=
  let sign := if q.num < 0 then "-" else ""
  let n := q.num.natAbs
  if q.den = 1 then sign ++ toString n ++ ".0"
  else sign ++ toString (n / q.den) ++ "." ++ fracDigits 30 (n % q.den) q.den

/-- Textual representation of a cell, as produced by `astype(str)`:
the absent marker renders as `"nan"` (Python `str(float("nan"))`). -/
def cellStr : Cell → String
  | none => "nan"
  | some (.vStr s) => s
  | some (.vInt n) => toString n
  | some (.vFloat q) => ratStr q

/-- Typed failures of `do_search` (each corresponds to one
`print_error` branch in the source). -/
inductive SearchError where
  | emptyTable
  | malformedQuery
  | unknownColumn (c : String)
deriving DecidableEq

/-- Python default whitespace, as `str.strip()` removes it. -/
def isPySpace (c : Char) : Bool :=
  c == ' ' || c == '\t' || c == '\n' || c == '\r' || c == '\x0b' || c == '\x0c'

/-- Drop leading whitespace characters. -/
def dropSpace : List Char → List Char
  | [] => []
  | c :: t => if isPySpace c then dropSpace t else c :: t

/-- Python `str.strip()`: remove whitespace from both ends. -/
def pyStrip (s : String) : String :=
  ⟨(dropSpace ((dropSpace s.data).reverse)).reverse⟩

/-- Split a character list at every occurrence of `sep`
(`str.split(sep)` for a one-character separator). -/
def splitChar : Char → List Char → List (List Char)
  | _, [] => [[]]
  | sep, c :: t =>
    if c == sep then [] :: splitChar sep t
    else
      match splitChar sep t with
      | h :: r => (c :: h) :: r
      | [] => [[c]]

/-- Python `s.split(sep)` for a one-character separator. -/
def pySplit (s : String) (sep : Char) : List String :=
  (splitChar sep s.data).map (fun l => ⟨l⟩)

/-- `InventoryManager.do_search`: reject an empty table; split the query
on every `=` and require exactly two parts (Python tuple unpacking of
`query.split('=')`, whose failure is caught as a syntax error); strip
both parts; reject an unknown column; otherwise keep exactly the rows
whose cell at the column, rendered by `astype(str)`, is matched
somewhere by the value read as a case-insensitive regular expression. -/
def do_search (t : Table) (query : String) : Except SearchError (List Row) :=
  if t.rows.isEmpty then .error .emptyTable
  else
    match pySplit query '=' with
    | [c, v] =>
      let column := pyStrip c
      let value := pyStrip v
      if t.cols.contains column then
        .ok (t.rows.filter (fun r => reContains (cellStr (getCell r column)) value))
      else .error (.unknownColumn column)
    | _ => .error .malformedQuery

/-! ### Aggregation (`do_summary`) -/

/-- Numeric reading of a value (pandas numeric dtypes). -/
def numVal : Value → Option ℚ
  | .vInt n => some (n : ℚ)
  | .vFloat q => some q
  | .vStr _ => none

/-- Numeric reading of a cell; the absent marker reads as non-numeric. -/
def cellNum (c : Cell) : Option ℚ := c.bind numVal

/-- pandas group-key equality: numeric keys compare by value — `int 1`
and `float 1.0` are one key — strings compare structurally, and a
number never equals a string. `groupby` identifies keys up to this
relation; the grouping below uses structural equality, faithful exactly
when no two distinct key values are `valEquiv`-related. -/
def valEquiv (a b : Value) : Bool :=
  match numVal a, numVal b with
  | some x, some y => decide (x = y)
  | none, none => decide (a = b)
  | _, _ => false

/-- A numeric-or-absent cell: the domain on which the group sum is
modelled (`agg` of `sum` over an object column of strings concatenates
or raises `TypeError` instead of summing). -/
def numericCell : Cell → Bool
  | none => true
  | some v => (numVal v).isSome

/-- Sort key of a group-key value: numeric values compare numerically,
strings lexically, and numerics sort before strings. -/
def valKey : Value → ℚ ⊕ String
  | .vStr s => Sum.inr s
  | v => Sum.inl ((numVal v).getD 0)

/-- The ascending order used by `groupby` on group keys. -/
def valLe (a b : Value) : Bool :=
  match valKey a, valKey b with
  | Sum.inl x, Sum.inl y => decide (x ≤ y)
  | Sum.inl _, Sum.inr _ => true
  | Sum.inr _, Sum.inl _ => false
  | Sum.inr x, Sum.inr y => decide (x ≤ y)

/-- `valLe` as a relation, for the sorting lemmas. -/
def ValLeP (a b : Value) : Prop := valLe a b = true

instance : DecidableRel ValLeP := fun a b => instDecidableEqBool (valLe a b) true

/-- The three columns `do_summary` requires. -/
def groupCol : String := "category"

/-- Column summed per group. -/
def quantityCol : String := "quantity"

/-- Column averaged per group. -/
def priceCol : String := "unit_price"

/-- One row of the summary table: group key, `Total Quantity`,
`Average Price` (`none` renders as `NaN`: a group with no numeric
price observation). -/
structure SummaryRow where
  key : Value
  totalQuantity : ℚ
  averagePrice : Option ℚ
deriving DecidableEq

/-- Typed failures of `do_summary`. -/
inductive SummaryError where
  | emptyTable
  | missingColumns
deriving DecidableEq

/-- The distinct present group-key values, in first-appearance order.
`groupby`'s default `dropna=True` drops rows whose key is `NaN`, so
absent markers contribute no key. -/
def groupKeys (t : Table) : List Value :=
  (t.rows.filterMap (fun r => getCell r groupCol)).dedup

/-- The rows of the group keyed by `v`: exact-value partition. -/
def groupRows (t : Table) (v : Value) : List Row :=
  t.rows.filter (fun r => decide (getCell r groupCol = some v))

/-- Aggregate one group: `sum` treats absent quantity cells as 0;
`mean` averages over the present numeric price cells only, and is
`NaN` (`none`) when there is none. -/
def summarize (t : Table) (v : Value) : SummaryRow :=
  let g := groupRows t v
  let qs := g.map (fun r => (cellNum (getCell r quantityCol)).getD 0)
  let ps := g.filterMap (fun r => cellNum (getCell r priceCol))
  ⟨v, qs.sum, if ps.isEmpty then none else some (ps.sum / (ps.length : ℚ))⟩

/-- `InventoryManager.do_summary`: reject an empty table, then a table
missing any of the three required columns; otherwise group by
`category` (dropping absent keys, as `groupby` does), aggregate each
group, and emit groups in ascending key order. -/
def do_summary (t : Table) : Except SummaryError (List SummaryRow) :=
  if t.rows.isEmpty then .error .emptyTable
  else if [groupCol, quantityCol, priceCol].all t.cols.contains then
    .ok ((List.insertionSort ValLeP (groupKeys t)).map (summarize t))
  else .error .missingColumns

/-! ### Loader (`do_load`) -/

/-- Typed failures of `do_load`. -/
inductive LoadError where
  | folderNotFound
  | noCsvFiles
  | noValidFiles
deriving DecidableEq

/-- A directory entry as the loader sees it: its name and the outcome of
`pd.read_csv` on it — `none` when parsing raises `EmptyDataError` or
`ParserError`, `some` batch otherwise. -/
structure FileEntry where
  name : String
  parsed : Option Table
deriving DecidableEq

/-- The folder argument of `do_load`: whether the path is a directory,
and its files in enumeration order (`os.listdir`). -/
structure Folder where
  isDir : Bool
  files : List FileEntry
deriving DecidableEq

/-- `f.endswith(".csv")`. -/
def endsWithCsv (s : String) : Bool :=
  charsStart ".csv".data.reverse s.data.reverse

/-- Ordered union of the batches' column sets, first appearance first
(the column order `pd.concat` gives the consolidated frame). -/
def unionCols (batches : List Table) : List String :=
  batches.foldl (fun acc b => acc ++ b.cols.filter (fun c => !acc.contains c)) []

/-- Project a row onto a column list; columns the row's batch lacks are
filled with the absent marker (`pd.concat`'s `NaN` fill). -/
def projectRow (cols : List String) (r : Row) : Row :=
  cols.map (fun c => (c, getCell r c))

/-- `pd.concat(data_frames, ignore_index=True)`: outer union of columns,
rows concatenated in batch order. -/
def concatTables (batches : List Table) : Table :=
  let cols := unionCols batches
  ⟨cols, batches.flatMap (fun b => b.rows.map (projectRow cols))⟩

/-- Outcome of `do_load`: the table after the call, the error (if any),
and the names of the files whose parse failed (each reported with a
per-file error message). -/
structure LoadResult where
  table : Table
  err : Option LoadError
  failed : List String
deriving DecidableEq

/-- `InventoryManager.do_load`: fail (keeping the table) when the path is
no directory or no `.csv` file is present; otherwise parse each `.csv`
file, collecting failures per file; replace the table with the
concatenation of the successful batches, or fail keeping the table when
none parsed. -/
def do_load (prev : Table) (folder : Folder) : LoadResult :=
  if !folder.isDir then ⟨prev, some .folderNotFound, []⟩
  else
    let csvFiles := folder.files.filter (fun f => endsWithCsv f.name)
    if csvFiles.isEmpty then ⟨prev, some .noCsvFiles, []⟩
    else
      let batches := csvFiles.filterMap (·.parsed)
      let failed := (csvFiles.filter (fun f => f.parsed.isNone)).map (·.name)
      if batches.isEmpty then ⟨prev, some .noValidFiles, failed⟩
      else ⟨concatTables batches, none, failed⟩

/-! ### Preview (`do_show`) -/

/-- Typed failures of `do_show`. -/
inductive ShowError where
  | emptyTable
  | invalidNumber
deriving DecidableEq

/-- Value of a non-empty all-digit string (`int()` on digits). -/
def decDigitsVal (l : List Char) : Option Nat :=
  if l.isEmpty then none
  else if l.all Char.isDigit then
    some (l.foldl (fun a c => a * 10 + (c.toNat - 48)) 0)
  else none

/-- Python `int(s)` on a stripped string: optional sign then digits. -/
def parsePyInt (s : String) : Option Int :=
  match s.data with
  | '-' :: rest => (decDigitsVal rest).map (fun n => -(n : Int))
  | '+' :: rest => (decDigitsVal rest).map (fun n => (n : Int))
  | l => (decDigitsVal l).map (fun n => (n : Int))

/-- `DataFrame.head(n)`: the first `n` rows for `n ≥ 0` (all rows when
`n` exceeds the row count); for `n < 0`, all rows but the last `|n|`. -/
def headN (rows : List Row) (n : Int) : List Row :=
  if 0 ≤ n then rows.take n.toNat
  else rows.take (rows.length - n.natAbs)

/-- `InventoryManager.do_show`: reject an empty table; a blank argument
defaults to 5; a non-integer argument is an error; otherwise show
`head(n)`. -/
def do_show (t : Table) (nStr : String) : Except ShowError (List Row) :=
  if t.rows.isEmpty then .error .emptyTable
  else
    let s := pyStrip nStr
    if s.data.isEmpty then .ok (headN t.rows 5)
    else
      match parsePyInt s with
      | some n => .ok (headN t.rows n)
      | none => .error .invalidNumber

/-! ### Fixtures: concrete tables exercised by the theorems -/

/-- Row with the three summary columns. -/
def mkRow3 (cat q p : Cell) : Row :=
  [("category", cat), ("quantity", q), ("unit_price", p)]

/-- The spec's aggregation example table. -/
def tableSummaryEx : Table :=
  ⟨["category", "quantity", "unit_price"],
   [mkRow3 (some (.vStr "A")) (some (.vInt 10)) (some (.vFloat 5.5)),
    mkRow3 (some (.vStr "A")) (some (.vInt 15)) (some (.vFloat 6.0)),
    mkRow3 (some (.vStr "B")) (some (.vInt 20)) (some (.vFloat 7.0))]⟩

/-- Single-column table with the spec's search example values. -/
def tableSearchEx : Table :=
  ⟨["category"],
   [[("category", some (.vStr "A"))],
    [("category", some (.vStr "Apple"))],
    [("category", some (.vStr "banana"))]]⟩

/-- One-row table whose cell text `"abc"` is regex-matched by `a.c`
but does not contain it as a literal substring. -/
def rowAbc : Row := [("category", some (.vStr "abc"))]

/-- Table holding only `rowAbc`. -/
def tableRegexEx : Table := ⟨["category"], [rowAbc]⟩

/-- A row whose `category` cell is the absent marker. -/
def rowAbsentCat : Row := [("category", none), ("quantity", some (.vInt 1))]

/-- Table holding only `rowAbsentCat`. -/
def tableAbsentCat : Table := ⟨["category", "quantity"], [rowAbsentCat]⟩

/-- Summary-shaped row with an absent group key. -/
def rowDropNaN : Row := mkRow3 none (some (.vInt 1)) (some (.vInt 1))

/-- Summary-shaped table with one keyed row and one absent-key row. -/
def tableDropNaN : Table :=
  ⟨["category", "quantity", "unit_price"],
   [mkRow3 (some (.vStr "A")) (some (.vInt 10)) (some (.vInt 2)), rowDropNaN]⟩

/-- A non-empty one-column table. -/
def tableOne : Table := ⟨["category"], [[("category", some (.vStr "X"))]]⟩

/-- An empty table that still has a column (fresh-session state). -/
def tableEmptyCat : Table := ⟨["category"], []⟩

/-- First row of `tableTwo`. -/
def rowFirst : Row := [("category", some (.vStr "p"))]

/-- Second row of `tableTwo`. -/
def rowSecond : Row := [("category", some (.vStr "q"))]

/-- A two-row table for the `show` claims. -/
def tableTwo : Table := ⟨["category"], [rowFirst, rowSecond]⟩

/-- A one-row batch, as parsed from a well-formed file. -/
def batchGood : Table := ⟨["category"], [[("category", some (.vStr "A"))]]⟩

/-- Folder with one parseable `.csv`, one malformed `.csv`, and one
ignored non-`.csv` file. -/
def folderMixed : Folder :=
  ⟨true, [⟨"good.csv", some batchGood⟩, ⟨"bad.csv", none⟩, ⟨"notes.txt", some batchGood⟩]⟩

/-- A path that is not a directory. -/
def folderMissing : Folder := ⟨false, []⟩

/-! ### Order lemmas for the group-key order -/

lemma valLe_total : ∀ a b : Value, valLe a b = true ∨ valLe b a = true := by
  intro a b
  unfold valLe
  cases ha : valKey a with
  | inl x => cases hb : valKey b with
    | inl y => simpa using le_total x y
    | inr y => simp
  | inr x => cases hb : valKey b with
    | inl y => simp
    | inr y => simpa using le_total x y

lemma valLe_trans : ∀ a b c : Value,
    valLe a b = true → valLe b c = true → valLe a c = true := by
  intro a b c hab hbc
  unfold valLe at *
  cases ha : valKey a <;> cases hb : valKey b <;> cases hc : valKey c <;>
    simp_all <;> exact le_trans hab hbc

instance : IsTotal Value ValLeP := ⟨valLe_total⟩

instance : IsTrans Value ValLeP := ⟨valLe_trans⟩

/-! ### Characterization lemmas -/

lemma summarize_key (t : Table) (v : Value) : (summarize t v).key = v := rfl

lemma do_summary_ok {t : Table} {s : List SummaryRow} (h : do_summary t = .ok s) :
    s = (List.insertionSort ValLeP (groupKeys t)).map (summarize t) := by
  unfold do_summary at h
  split at h
  · cases h
  · split at h
    · injection h with h
      exact h.symm
    · cases h

/-- C1: on the spec's three-row example the summary is
`[(A, 25, 5.75), (B, 20, 7.0)]` with group `A` before group `B`; and for
every table on which `do_summary` succeeds, the summary rows come in
ascending group-key order. -/
theorem summary_example_and_ascending :
    do_summary tableSummaryEx =
      .ok [⟨.vStr "A", 25, some (5.75 : ℚ)⟩, ⟨.vStr "B", 20, some (7 : ℚ)⟩] ∧
    ∀ (t : Table) (s : List SummaryRow), do_summary t = .ok s →
      List.Sorted ValLeP (s.map SummaryRow.key) := by
  refine ⟨by with_unfolding_all decide, ?_⟩
  intro t s h
  rw [do_summary_ok h, List.map_map]
  have hk : SummaryRow.key ∘ summarize t = id := by
    funext v
    rfl
  rw [hk, List.map_id]
  exact List.sorted_insertionSort ValLeP (groupKeys t)

/-- Witness for C1 at the example table. -/
theorem summary_example_and_ascending_witness :
    List.Sorted ValLeP
      (([⟨.vStr "A", 25, some (5.75 : ℚ)⟩, ⟨.vStr "B", 20, some (7 : ℚ)⟩] :
        List SummaryRow).map SummaryRow.key) :=
  summary_example_and_ascending.2 tableSummaryEx _ summary_example_and_ascending.1

lemma reFind_nil (l : List Char) : reFind [] l = true := by
  cases l <;> simp [reFind, reStart]

lemma reContains_empty (s : String) : reContains s "" = true :=
  reFind_nil _

lemma toNat_ofNat_valid {n : Nat} (h : n.isValidChar) : (Char.ofNat n).toNat = n := by
  unfold Char.ofNat
  rw [dif_pos h]
  rfl

lemma lowChar_ne_dot {c : Char} (h : ¬ c = '.') : ¬ lowChar c = '.' := by
  intro hEq
  unfold lowChar Char.toLower at hEq
  by_cases hc : c.toNat ≥ 65 ∧ c.toNat ≤ 90
  · rw [if_pos hc] at hEq
    have hv : Nat.isValidChar (c.toNat + 32) := Or.inl (by omega)
    have h1 := toNat_ofNat_valid hv
    rw [hEq] at h1
    have h3 : ('.' : Char).toNat = 46 := rfl
    omega
  · rw [if_neg hc] at hEq
    exact h hEq

lemma reStart_eq_charsStart : ∀ (ps cs : List Char), (∀ p ∈ ps, ¬ p = '.') →
    reStart ps cs = charsStart ps cs
  | [], _, _ => rfl
  | _ :: _, [], _ => rfl
  | p :: ps, c :: cs, h => by
    unfold reStart charsStart reCharMatch
    rw [reStart_eq_charsStart ps cs (fun x hx => h x (List.mem_cons_of_mem _ hx))]
    have hp : (p == '.') = false :=
      beq_eq_false_iff_ne.mpr (h p (List.mem_cons_self _ _))
    rw [hp, Bool.false_or]

lemma reFind_eq_charsFind : ∀ (ps l : List Char), (∀ p ∈ ps, ¬ p = '.') →
    reFind ps l = charsFind ps l
  | _, [], _ => rfl
  | ps, c :: t, h => by
    unfold reFind charsFind
    rw [reStart_eq_charsStart ps (c :: t) h, reFind_eq_charsFind ps t h]

lemma reContains_eq_substrCI {pat : String} (h : isReLiteralPat pat = true)
    (hay : String) : reContains hay pat = substrCI hay pat := by
  unfold reContains substrCI
  apply reFind_eq_charsFind
  intro p hp
  rw [List.mem_map] at hp
  obtain ⟨q, hq, hlow⟩ := hp
  unfold isReLiteralPat at h
  rw [List.all_eq_true] at h
  have hql := h q hq
  rw [← hlow]
  apply lowChar_ne_dot
  intro hqe
  rw [hqe] at hql
  simp at hql

lemma do_search_rows_ne_nil {t : Table} {query : String} {res : List Row}
    (h : do_search t query = .ok res) : t.rows ≠ [] := by
  intro he
  unfold do_search at h
  rw [List.isEmpty_iff.mpr he] at h
  simp at h

lemma do_search_eq_filter (t : Table) {query c v : String}
    (h0 : t.rows ≠ []) (hq : pySplit query '=' = [c, v])
    (hc : t.cols.contains (pyStrip c) = true) :
    do_search t query =
      .ok (t.rows.filter (fun r => reContains (cellStr (getCell r (pyStrip c))) (pyStrip v))) := by
  have h0' : t.rows.isEmpty = false := List.isEmpty_eq_false.mpr h0
  unfold do_search
  rw [h0', hq]
  simp only [Bool.false_eq_true, if_false]
  rw [if_pos (by simpa using hc)]

/-- C8 as stated is false: `str.contains` interprets the search value as
a regular expression (default `regex=True`), not a literal substring —
`search category=a.c` returns the row whose cell text is `"abc"`,
although `"abc"` does not contain the substring `"a.c"`. -/
theorem search_regex_counterexample :
    do_search tableRegexEx "category=a.c" = .ok [rowAbc] ∧
    substrCI (cellStr (getCell rowAbc "category")) "a.c" = false := by
  decide

/-- C8 corrected: the search value is a regular expression compiled with
`re.IGNORECASE` (pandas `str.contains` default `regex=True`), not a
literal substring. A successful search over a value in the modelled
fragment returns the order-preserving subsequence of exactly the rows
whose cell text, rendered by `astype(str)`, the pattern matches
somewhere; for values free of metacharacters this coincides with
case-insensitive substring containment — in particular the spec's
example values `"A"`, `"Apple"`, `"banana"` all match `"a"` — and an
empty result is a success (zero matches), not an error. -/
theorem search_regex_semantics (t : Table) (query c v : String) (res : List Row)
    (hq : pySplit query '=' = [c, v])
    (hc : t.cols.contains (pyStrip c) = true)
    (hfrag : inReFragment (pyStrip v) = true)
    (h : do_search t query = .ok res) :
    (res.Sublist t.rows ∧
      ∀ r : Row, r ∈ res ↔
        r ∈ t.rows ∧ reContains (cellStr (getCell r (pyStrip c))) (pyStrip v) = true) ∧
    (∀ pat hay : String, isReLiteralPat pat = true →
      reContains hay pat = substrCI hay pat) ∧
    (reContains "A" "a" = true ∧ reContains "Apple" "a" = true ∧
      reContains "banana" "a" = true ∧
      do_search tableSearchEx "category=zz" = .ok []) := by
  have h0 := do_search_rows_ne_nil h
  rw [do_search_eq_filter t h0 hq hc] at h
  injection h with h
  subst h
  exact ⟨⟨List.filter_sublist _, fun r => List.mem_filter⟩,
    fun pat hay hl => reContains_eq_substrCI hl hay,
    by decide, by decide, by decide, by decide⟩

/-- Witness for C8 (corrected): the `"A"` row of the example table is in
the result of `search category=a` exactly because the pattern `"a"`
matches its text. -/
theorem search_regex_semantics_witness :
    ([("category", some (.vStr "A"))] : Row) ∈ tableSearchEx.rows ∧
      reContains (cellStr (getCell [("category", some (.vStr "A"))] "category")) "a" = true :=
  ((search_regex_semantics tableSearchEx "category=a" "category" "a"
      tableSearchEx.rows (by decide) (by decide) (by decide) (by decide)).1.2 _).mp (by decide)

/-- C9: with a non-empty table, a query that does not split into exactly
two `=`-delimited parts fails with the syntax error and returns no rows. -/
theorem search_malformed_query (t : Table) (query : String)
    (h0 : t.rows ≠ []) (hq : (pySplit query '=').length ≠ 2) :
    do_search t query = .error .malformedQuery := by
  have h0' : t.rows.isEmpty = false := List.isEmpty_eq_false.mpr h0
  unfold do_search
  rw [h0']
  rcases hl : pySplit query '=' with _ | ⟨a, _ | ⟨b, _ | ⟨d, l⟩⟩⟩
  · rfl
  · rfl
  · rw [hl] at hq
    simp at hq
  · rfl

/-- Witness for C9: a query with no `=` at all. -/
theorem search_malformed_query_witness :
    do_search tableOne "abc" = .error .malformedQuery :=
  search_malformed_query tableOne "abc" (by decide) (by decide)

/-- C2 as stated is false: the absent marker is rendered `"nan"` by
`astype(str)`, so the non-empty substring `"a"` matches a row whose
`category` cell is absent. -/
theorem search_absent_counterexample :
    getCell rowAbsentCat "category" = none ∧ ("a" : String) ≠ "" ∧
    do_search tableAbsentCat "category=a" = .ok [rowAbsentCat] := by
  decide

/-- C2 corrected: a row whose cell at the searched column is absent is
included exactly when the trimmed value, read as a case-insensitive
regular expression, matches `"nan"` — the text `astype(str)` gives the
absent marker — so non-empty values such as `"a"` (or `"n.n"`) do match
absent cells; the zero-length value matches every row, absent cells
included. Stated over the modelled regex fragment. -/
theorem search_absent_amended (t : Table) (query c v : String) (res : List Row)
    (hq : pySplit query '=' = [c, v]) (hc : t.cols.contains (pyStrip c) = true)
    (hfrag : inReFragment (pyStrip v) = true)
    (h : do_search t query = .ok res) :
    (∀ r ∈ t.rows, getCell r (pyStrip c) = none →
      (r ∈ res ↔ reContains "nan" (pyStrip v) = true)) ∧
    ((pyStrip v) = "" → res = t.rows) := by
  have h0 := do_search_rows_ne_nil h
  rw [do_search_eq_filter t h0 hq hc] at h
  injection h with h
  subst h
  constructor
  · intro r hr habs
    rw [List.mem_filter, habs]
    simp [hr, cellStr]
  · intro hv
    rw [hv]
    exact List.filter_eq_self.mpr (fun r _ => reContains_empty _)

/-- Witness for C2 (corrected): the absent-cell row is in the result of
`search category=a` exactly because `"nan"` contains `"a"`. -/
theorem search_absent_amended_witness :
    rowAbsentCat ∈ ([rowAbsentCat] : List Row) ↔ reContains "nan" "a" = true :=
  (search_absent_amended tableAbsentCat "category=a" "category" "a" [rowAbsentCat]
    (by decide) (by decide) (by decide) (by decide)).1 rowAbsentCat (by decide) (by decide)

/-- C4 as stated is false for the empty table: the empty-table check runs
first, so an unknown column on an empty table reports the empty-table
error, not the unknown-column error. -/
theorem search_unknown_column_counterexample :
    do_search tableEmptyCat "foo=1" = .error .emptyTable ∧
    SearchError.emptyTable ≠ SearchError.unknownColumn "foo" := by
  decide

/-- C4 corrected: on a non-empty table, a well-formed query whose trimmed
column name is not in the effective column set fails with the
unknown-column error. -/
theorem search_unknown_column_amended (t : Table) (query c v : String)
    (h0 : t.rows ≠ []) (hq : pySplit query '=' = [c, v])
    (hc : t.cols.contains (pyStrip c) = false) :
    do_search t query = .error (.unknownColumn (pyStrip c)) := by
  have h0' : t.rows.isEmpty = false := List.isEmpty_eq_false.mpr h0
  unfold do_search
  rw [h0', hq]
  simp only [Bool.false_eq_true, if_false]
  rw [if_neg (by rw [hc]; simp)]

/-- Witness for C4 (corrected): unknown column `foo` on a one-row table. -/
theorem search_unknown_column_amended_witness :
    do_search tableOne "foo=1" = .error (.unknownColumn "foo") :=
  search_unknown_column_amended tableOne "foo=1" "foo" "1"
    (by decide) (by decide) (by decide)

/-- C3 as stated is false: `groupby` drops rows whose group-key cell is
absent (`dropna=True`), so the absent-key row of `tableDropNaN` yields no
group — the summary has only the `"A"` group. -/
theorem summary_drops_absent_counterexample :
    rowDropNaN ∈ tableDropNaN.rows ∧ getCell rowDropNaN groupCol = none ∧
    do_summary tableDropNaN = .ok [⟨.vStr "A", 10, some 2⟩] := by
  with_unfolding_all decide

/-- C3 corrected: rows whose group-key cell is absent are silently
dropped (`groupby`'s default `dropna=True`) and induce no group; among
present keys, a successful summary has one group per distinct key
value, each aggregating exactly the rows whose key cell equals that
group's key. Stated on the faithful domain: no two distinct key values
are pandas-equal (`valEquiv` — `groupby` identifies `int 1` with
`float 1.0`), and every quantity cell is numeric or absent
(`numericCell` — `sum` over strings concatenates or raises instead). -/
theorem summary_groups_amended (t : Table) (s : List SummaryRow)
    (h : do_summary t = .ok s)
    (hkeys : ∀ v ∈ groupKeys t, ∀ w ∈ groupKeys t, valEquiv v w = true → v = w)
    (hquant : ∀ r ∈ t.rows, numericCell (getCell r quantityCol) = true) :
    (∀ v : Value,
      (∃ sr ∈ s, sr.key = v) ↔ ∃ r ∈ t.rows, getCell r groupCol = some v) ∧
    ∀ sr ∈ s, sr.totalQuantity =
      ((groupRows t sr.key).map
        (fun r => (cellNum (getCell r quantityCol)).getD 0)).sum := by
  constructor
  · intro v
    constructor
    · rintro ⟨sr, hsr, hk⟩
      rw [do_summary_ok h] at hsr
      obtain ⟨w, hw, hws⟩ := List.mem_map.mp hsr
      rw [List.mem_insertionSort] at hw
      unfold groupKeys at hw
      rw [List.mem_dedup, List.mem_filterMap] at hw
      obtain ⟨r, hr, hf⟩ := hw
      refine ⟨r, hr, ?_⟩
      rw [hf]
      have : w = v := by rw [← hk, ← hws, summarize_key]
      rw [this]
    · rintro ⟨r, hr, hf⟩
      refine ⟨summarize t v, ?_, summarize_key t v⟩
      rw [do_summary_ok h]
      refine List.mem_map_of_mem _ ?_
      rw [List.mem_insertionSort]
      unfold groupKeys
      rw [List.mem_dedup, List.mem_filterMap]
      exact ⟨r, hr, hf⟩
  · intro sr hsr
    rw [do_summary_ok h] at hsr
    obtain ⟨w, hw, hws⟩ := List.mem_map.mp hsr
    rw [← hws]
    rfl

/-- Witness for C3 (corrected) at the drop table: the `"A"` group exists
because a row carries that key. -/
theorem summary_groups_amended_witness :
    (∃ sr ∈ [(⟨.vStr "A", 10, some 2⟩ : SummaryRow)], sr.key = .vStr "A") ↔
      ∃ r ∈ tableDropNaN.rows, getCell r groupCol = some (.vStr "A") :=
  (summary_groups_amended tableDropNaN _ (by with_unfolding_all decide)
    (by with_unfolding_all decide) (by with_unfolding_all decide)).1 (.vStr "A")

lemma do_load_success (prev : Table) (folder : Folder)
    (hdir : folder.isDir = true)
    (h2 : (folder.files.filter (fun f => endsWithCsv f.name)).filterMap
      FileEntry.parsed ≠ []) :
    do_load prev folder =
      ⟨concatTables ((folder.files.filter (fun f => endsWithCsv f.name)).filterMap
          FileEntry.parsed),
       none,
       ((folder.files.filter (fun f => endsWithCsv f.name)).filter
         (fun f => f.parsed.isNone)).map FileEntry.name⟩ := by
  have h1 : folder.files.filter (fun f => endsWithCsv f.name) ≠ [] := by
    intro he
    rw [he] at h2
    simp at h2
  unfold do_load
  rw [hdir]
  simp only [Bool.not_true, Bool.false_eq_true, if_false,
    List.isEmpty_eq_false.mpr h1, List.isEmpty_eq_false.mpr h2]

lemma do_load_notDir (prev : Table) (folder : Folder)
    (hdir : folder.isDir = false) :
    do_load prev folder = ⟨prev, some .folderNotFound, []⟩ := by
  unfold do_load
  rw [hdir]
  rfl

lemma do_load_noCsv (prev : Table) (folder : Folder)
    (hdir : folder.isDir = true)
    (h1 : folder.files.filter (fun f => endsWithCsv f.name) = []) :
    do_load prev folder = ⟨prev, some .noCsvFiles, []⟩ := by
  unfold do_load
  rw [hdir]
  simp only [Bool.not_true, Bool.false_eq_true, if_false,
    List.isEmpty_iff.mpr h1, if_true]

lemma do_load_noValid (prev : Table) (folder : Folder)
    (hdir : folder.isDir = true)
    (h1 : folder.files.filter (fun f => endsWithCsv f.name) ≠ [])
    (h2 : (folder.files.filter (fun f => endsWithCsv f.name)).filterMap
      FileEntry.parsed = []) :
    do_load prev folder =
      ⟨prev, some .noValidFiles,
       ((folder.files.filter (fun f => endsWithCsv f.name)).filter
         (fun f => f.parsed.isNone)).map FileEntry.name⟩ := by
  unfold do_load
  rw [hdir]
  simp only [Bool.not_true, Bool.false_eq_true, if_false,
    List.isEmpty_eq_false.mpr h1, List.isEmpty_iff.mpr h2, if_true]

/-- C5: loading a directory holding at least one parseable `.csv` and at
least one malformed `.csv` succeeds; the table's row count is the sum of
the successful batches' row counts; exactly the malformed `.csv` files
are reported; and the rows are the concatenation of the successful
batches, projected onto the united column set, in enumeration order. -/
theorem load_mixed_folder (prev : Table) (folder : Folder)
    (hdir : folder.isDir = true)
    (hgood : ∃ f ∈ folder.files, endsWithCsv f.name = true ∧ f.parsed.isSome = true)
    (hbad : ∃ f ∈ folder.files, endsWithCsv f.name = true ∧ f.parsed.isNone = true) :
    (do_load prev folder).err = none ∧
    (do_load prev folder).table.rows.length =
      (((folder.files.filter (fun f => endsWithCsv f.name)).filterMap
        FileEntry.parsed).map (fun b => b.rows.length)).sum ∧
    (do_load prev folder).failed =
      ((folder.files.filter (fun f => endsWithCsv f.name)).filter
        (fun f => f.parsed.isNone)).map FileEntry.name ∧
    (do_load prev folder).table.rows =
      ((folder.files.filter (fun f => endsWithCsv f.name)).filterMap
        FileEntry.parsed).flatMap
        (fun b => b.rows.map (projectRow (unionCols
          ((folder.files.filter (fun f => endsWithCsv f.name)).filterMap
            FileEntry.parsed)))) := by
  obtain ⟨fg, hfg, hfgcsv, hfgsome⟩ := hgood
  have hmemcsv : fg ∈ folder.files.filter (fun f => endsWithCsv f.name) :=
    List.mem_filter.mpr ⟨hfg, hfgcsv⟩
  have h1 : (folder.files.filter (fun f => endsWithCsv f.name)).isEmpty = false :=
    List.isEmpty_eq_false.mpr (List.ne_nil_of_mem hmemcsv)
  obtain ⟨b, hb⟩ := Option.isSome_iff_exists.mp hfgsome
  have hbmem : b ∈ (folder.files.filter (fun f => endsWithCsv f.name)).filterMap
      FileEntry.parsed :=
    List.mem_filterMap.mpr ⟨fg, hmemcsv, hb⟩
  rw [do_load_success prev folder hdir (List.ne_nil_of_mem hbmem)]
  refine ⟨rfl, ?_, rfl, rfl⟩
  show (concatTables _).rows.length = _
  unfold concatTables
  rw [List.length_flatMap]
  simp only [Function.comp_def, List.length_map]

/-- Witness for C5 at `folderMixed`: one good batch of one row, one
malformed file reported, the `.txt` file ignored. -/
theorem load_mixed_folder_witness :
    (do_load tableEmptyCat folderMixed).err = none :=
  (load_mixed_folder tableEmptyCat folderMixed (by decide)
    ⟨⟨"good.csv", some batchGood⟩, by decide, by decide, by decide⟩
    ⟨⟨"bad.csv", none⟩, by decide, by decide, by decide⟩).1

/-- C6: whenever `do_load` fails — path not a directory, no `.csv` file,
or zero successful parses — the table is exactly what it was before. -/
theorem load_failure_preserves_table (prev : Table) (folder : Folder) (e : LoadError)
    (h : (do_load prev folder).err = some e) :
    (do_load prev folder).table = prev := by
  by_cases hdir : folder.isDir = true
  · by_cases h1 : folder.files.filter (fun f => endsWithCsv f.name) = []
    · rw [do_load_noCsv prev folder hdir h1]
    · by_cases h2 : (folder.files.filter (fun f => endsWithCsv f.name)).filterMap
        FileEntry.parsed = []
      · rw [do_load_noValid prev folder hdir h1 h2]
      · rw [do_load_success prev folder hdir h2] at h
        cases h
  · rw [do_load_notDir prev folder (by simpa using hdir)]

/-- Witness for C6: a folder whose only `.csv` file is malformed fails
with `noValidFiles` and leaves the one-row table untouched. -/
theorem load_failure_preserves_table_witness :
    (do_load tableOne ⟨true, [⟨"bad.csv", none⟩]⟩).table = tableOne :=
  load_failure_preserves_table tableOne ⟨true, [⟨"bad.csv", none⟩]⟩
    .noValidFiles (by decide)

lemma parsePyInt_nil {s : String} (h : s.data = []) : parsePyInt s = none := by
  unfold parsePyInt
  rw [h]
  rfl

/-- C7 as stated is false for negative `N`: `head(-1)` on a two-row table
returns the first row — one row, not zero. -/
theorem show_negative_counterexample :
    do_show tableTwo "-1" = .ok [rowFirst] ∧ ([rowFirst] : List Row).length ≠ 0 := by
  decide

/-- C7 corrected: with a parseable integer argument `n`, `show` never
fails: `n` greater than the row count yields all rows, `n = 0` yields
zero rows, and negative `n` yields all rows but the last `|n|` (zero
rows only when `|n|` reaches the row count). -/
theorem show_bounds_amended (t : Table) (nStr : String) (n : Int)
    (h0 : t.rows ≠ []) (hp : parsePyInt (pyStrip nStr) = some n) :
    do_show t nStr = .ok (headN t.rows n) ∧
    ((t.rows.length : Int) < n → headN t.rows n = t.rows) ∧
    (n = 0 → headN t.rows n = []) ∧
    (n < 0 → headN t.rows n = t.rows.take (t.rows.length - n.natAbs)) := by
  have hne : (pyStrip nStr).data.isEmpty = false := by
    rw [List.isEmpty_eq_false]
    intro he
    rw [parsePyInt_nil he] at hp
    cases hp
  refine ⟨?_, ?_, ?_, ?_⟩
  · unfold do_show
    rw [List.isEmpty_eq_false.mpr h0]
    simp only [Bool.false_eq_true, if_false, hne, hp]
  · intro hgt
    unfold headN
    rw [if_pos (le_trans (Int.natCast_nonneg _) hgt.le)]
    exact List.take_of_length_le (by omega)
  · intro hz
    rw [hz]
    simp [headN]
  · intro hneg
    unfold headN
    rw [if_neg (by omega)]

/-- Witness for C7 (corrected): `show -1` on the two-row table keeps the
first row only. -/
theorem show_bounds_amended_witness :
    do_show tableTwo "-1" = .ok (tableTwo.rows.take 1) := by
  have h := show_bounds_amended tableTwo "-1" (-1) (by decide) (by decide)
  rw [h.1, h.2.2.2 (by decide)]
  rfl

/-- C10: with a non-empty table, a blank (empty or whitespace-only)
argument to `show` displays the first 5 rows — the built-in default —
rather than failing or showing all rows. -/
theorem show_blank_defaults_to_five (t : Table) (nStr : String)
    (h0 : t.rows ≠ []) (hb : (pyStrip nStr).data = []) :
    do_show t nStr = .ok (t.rows.take 5) := by
  unfold do_show
  rw [List.isEmpty_eq_false.mpr h0]
  simp only [Bool.false_eq_true, if_false, hb]
  simp [headN]

/-- Witness for C10: a whitespace-only argument on the two-row table. -/
theorem show_blank_defaults_to_five_witness :
    do_show tableTwo "   " = .ok (tableTwo.rows.take 5) :=
  show_blank_defaults_to_five tableTwo "   " (by decide) (by decide)

end Inventory
